import Mathlib

/-!
Verification of the OpenPanel-FTP account store (`module/ftp.py` and
`module/admin/ftp.py`) against its natural-language specification.

The on-disk record file (`{FTP_USERS_DIR}/{owner}/users.list`) is modelled as
an `Option String` (`none` = the file does not exist, `some c` = the file
exists with byte content `c`, newlines written as `'\n'`).  The Python string
operations the module uses (`str.strip`, `str.split`, `str.splitlines`, file
line iteration) are embedded as executable Lean functions over `String`.

External collaborators are modelled as parameters:
the werkzeug password hash `generate_password_hash` becomes an arbitrary
function `gph : String → String` (it is salted and opaque to this module),
the docker restart becomes a `RestartOutcome` parameter describing which of
the possible outcomes of `_run_docker_restart` occurred, and the process
working directory used by `os.path.abspath` becomes a component list `cwd`.
Filesystem errors (OSError and friends) are outside the model: every modelled
read and write succeeds.
-/

/-- Python `str.strip` whitespace class (the ASCII part used here). -/
def isPySpace (c : Char) : Bool :=
  c = ' ' || c = '\t' || c = '\n' || c = '\r' || c = '\x0b' || c = '\x0c'

/-- Model of Python `str.strip()` on the character list. -/
def pyStripL (l : List Char) : List Char :=
  ((l.dropWhile isPySpace).reverse.dropWhile isPySpace).reverse

/-- Model of Python `str.strip()`. -/
def pyStrip (s : String) : String :=
  ⟨pyStripL s.data⟩

/-- Worker for `pySplit`: Python `str.split(sep)` with a one-character
separator; consecutive separators yield empty fields and the result is never
empty. -/
def pySplitAux (sep : Char) : List Char → List Char → List String
  | acc, [] => [⟨acc.reverse⟩]
  | acc, c :: cs =>
    if c = sep then ⟨acc.reverse⟩ :: pySplitAux sep [] cs
    else pySplitAux sep (c :: acc) cs

/-- Model of Python `s.split(sep)` for a one-character separator. -/
def pySplit (s : String) (sep : Char) : List String :=
  pySplitAux sep [] s.data

/-- Worker for `pySplitlines`: split at `'\n'`, terminators dropped, no
trailing empty line. -/
def pySplitlinesAux : List Char → List Char → List String
  | acc, [] => if acc.isEmpty then [] else [⟨acc.reverse⟩]
  | acc, c :: cs =>
    if c = '\n' then ⟨acc.reverse⟩ :: pySplitlinesAux [] cs
    else pySplitlinesAux (c :: acc) cs

/-- Model of Python `str.splitlines()` for `'\n'`-separated text. -/
def pySplitlines (s : String) : List String :=
  pySplitlinesAux [] s.data

/-- Worker for `fileLines`: Python text-file line iteration, each line keeps
its trailing `'\n'`; the last line may lack one. -/
def fileLinesAux : List Char → List Char → List String
  | acc, [] => if acc.isEmpty then [] else [⟨acc.reverse⟩]
  | acc, c :: cs =>
    if c = '\n' then ⟨acc.reverse ++ ['\n']⟩ :: fileLinesAux [] cs
    else fileLinesAux (c :: acc) cs

/-- Model of Python `for line in f` over the file content. -/
def fileLines (s : String) : List String :=
  fileLinesAux [] s.data

/-- Normalisation pass of `posixpath.normpath` on the components of an
absolute path: empty and `"."` components vanish, `".."` pops (and is dropped
at the root). -/
def normAbsAux : List String → List String → List String
  | stack, [] => stack.reverse
  | stack, c :: cs =>
    if c = "" || c = "." then normAbsAux stack cs
    else if c = ".." then normAbsAux stack.tail cs
    else normAbsAux (c :: stack) cs

/-- Model of Python `os.path.abspath`, returning the canonical component list
of the resulting absolute path.  `cwd` is the component list of the process
working directory (used only when `p` is relative, exactly as
`normpath(join(cwd, p))` does). -/
def pyAbspath (cwd : List String) (p : String) : List String :=
  if p.data.head? = some '/' then normAbsAux [] (pySplit p '/')
  else normAbsAux [] (cwd ++ pySplit p '/')

/-- Longest common leading run of two component lists: this is
`os.path.commonpath` on two already-canonical absolute paths. -/
def commonStem : List String → List String → List String
  | a :: as, b :: bs => if a = b then a :: commonStem as bs else []
  | _, _ => []

/-- Possible outcomes of the external `docker restart openadmin_ftp` call in
`_run_docker_restart` (`module/ftp.py`): clean success, non-zero exit,
missing docker binary, 30s timeout, or another caught exception. -/
inductive RestartOutcome where
  | ok : RestartOutcome
  | calledProcessError : RestartOutcome
  | fileNotFound : RestartOutcome
  | timeoutExpired : RestartOutcome
  | otherError : String → RestartOutcome
deriving DecidableEq

/-- Model of `_run_docker_restart` (`module/ftp.py`, lines 151-181): the
subprocess interaction itself is external, so the outcome is a parameter;
the returned flag and message are taken from the source verbatim. -/
def run_docker_restart : RestartOutcome → Bool × String
  | .ok => (true, "Service restarted successfully.")
  | .calledProcessError =>
      (false, "Failed to restart FTP service. Please restart manually.")
  | .fileNotFound =>
      (false, "Docker command not found. Cannot restart FTP service.")
  | .timeoutExpired => (false, "Timed out restarting FTP service.")
  | .otherError e =>
      (false, "An unexpected error occurred during service restart: " ++ e)

/-- Model of `get_max_ftp_accounts` (`module/ftp.py`): the constant 5. -/
def get_max_ftp_accounts : Nat := 5

/-- Model of `read_user_list` (`module/ftp.py`, lines 46-66): non-blank lines
of the file, stripped and split on `'|'`.  The admin module's
`read_user_list` (`module/admin/ftp.py`, lines 35-53) computes the same list
(the walrus filter there never rejects, since `split` is never empty). -/
def read_user_list (content : String) : List (List String) :=
  (pySplitlines content).filterMap fun line =>
    if pyStrip line = "" then none else some (pySplit (pyStrip line) '|')

/-- Model of `count_user_ftp_accounts` (`module/ftp.py`, lines 96-103):
0 when the file is absent, otherwise the number of parsed records. -/
def count_user_ftp_accounts (file : Option String) : Nat :=
  match file with
  | none => 0
  | some content => (read_user_list content).length

/-- Model of `can_create_ftp_account` (`module/ftp.py`, lines 106-110). -/
def can_create_ftp_account (file : Option String) : Bool :=
  count_user_ftp_accounts file < get_max_ftp_accounts

/-- Model of `validate_ftp_path` (`module/ftp.py`, lines 113-130): the check
`os.path.commonpath([abs_user_home, abs_folder_path]) != abs_user_home`
on `os.path.abspath`-canonicalised paths.  The `os.makedirs` side effect on
success and the OSError branch are outside the model. -/
def validate_ftp_path (cwd : List String) (username folder : String) :
    Bool × String :=
  if commonStem (pyAbspath cwd ("/home/" ++ username))
      (pyAbspath cwd folder) = pyAbspath cwd ("/home/" ++ username) then
    (true, "")
  else
    (false,
      "Path must be within users home directory: " ++ ("/home/" ++ username))

/-- One entry of the per-user account listing. -/
structure FtpRecord where
  username : String
  directory : String
deriving DecidableEq

/-- Model of `list_ftp_accounts` (`module/ftp.py`, lines 133-148):
empty when the file is absent; otherwise each parsed record with at least one
field yields its first field and either its third field or the synthesized
default directory. -/
def list_ftp_accounts (file : Option String) : List FtpRecord :=
  match file with
  | none => []
  | some content =>
      (read_user_list content).filterMap fun parts =>
        if 1 ≤ parts.length then
          some ⟨parts.headD "",
            if 2 < parts.length then parts.getD 2 ""
            else "/ftp/" ++ parts.headD ""⟩
        else none

/-- One entry of the admin all-accounts listing. -/
structure AdminFtpRecord where
  owner : String
  username : String
  directory : String
deriving DecidableEq

/-- Model of `get_all_ftp_accounts` (`module/admin/ftp.py`, lines 56-104):
`users` lists the subdirectories of `FTP_USERS_DIR` in scan order, each with
the content of its `users.list` when that file exists (`none` otherwise, in
which case the directory is skipped). -/
def get_all_ftp_accounts (users : List (String × Option String)) :
    List AdminFtpRecord :=
  ((users.filterMap fun pr =>
      match pr.2 with
      | none => none
      | some content => some (pr.1, content)).map fun pr =>
    (read_user_list pr.2).filterMap fun parts =>
      if 1 ≤ parts.length then
        some ⟨pr.1, parts.headD "",
          if 2 < parts.length then parts.getD 2 ""
          else "/ftp/" ++ parts.headD ""⟩
      else none).flatten

/-- Per-owner filesystem state touched by the store: the `users.list` content
and the `users.list.tmp` content (each `none` when the file is absent). -/
structure FsState where
  userList : Option String
  tempFile : Option String
deriving DecidableEq

/-- Result of one store operation: the returned `(success, message)` pair and
the filesystem state after the call. -/
structure OpResult where
  success : Bool
  message : String
  fs : FsState
deriving DecidableEq

/-- First field of a line as `delete_ftp_account` and `update_ftp_account`
compute it: `line.strip().split("|")[0]` (the split is never empty, so the
Python `parts and` guard is always true). -/
def firstField (line : String) : String :=
  (pySplit (pyStrip line) '|').headD ""

/-- First field of a line as the duplicate check of `create_ftp_account`
computes it: `line.split("|")[0]` on the raw line, without stripping, so a
trailing newline stays attached when the line has no `'|'`. -/
def rawFirstField (line : String) : String :=
  (pySplit line '|').headD ""

/-- Model of `create_ftp_account` (`module/ftp.py`, lines 184-236).
Parameter check, path validation, duplicate check over the raw lines of an
existing file, then append of `ftp_username|hash|folder\n` and the docker
restart whose failure only degrades the message. -/
def create_ftp_account (gph : String → String) (ro : RestartOutcome)
    (cwd : List String)
    (openpanel_username ftp_username password folder : String)
    (fs : FsState) : OpResult :=
  if openpanel_username = "" || ftp_username = "" || password = "" ||
      folder = "" then
    ⟨false,
      "Missing required parameters (username, FTP username, password, folder)",
      fs⟩
  else
    let vp := validate_ftp_path cwd openpanel_username folder
    if !vp.1 then ⟨false, vp.2, fs⟩
    else
      let dup :=
        match fs.userList with
        | some content =>
            (fileLines content).any fun line => rawFirstField line == ftp_username
        | none => false
      if dup then ⟨false, "FTP username already exists", fs⟩
      else
        let hashed_password := gph password
        let newContent := fs.userList.getD "" ++
          (ftp_username ++ "|" ++ hashed_password ++ "|" ++ folder ++ "\n")
        let fs2 : FsState := ⟨some newContent, fs.tempFile⟩
        match run_docker_restart ro with
        | (true, _) => ⟨true, "FTP account created successfully", fs2⟩
        | (false, restart_msg) =>
            ⟨true, "Account created, but " ++ restart_msg, fs2⟩

/-- Model of `delete_ftp_account` (`module/ftp.py`, lines 239-295).
When the file is absent the call returns before touching the temp file.
Otherwise all lines whose first (stripped) field differs from `ftp_username`
are streamed into the temp file; if no line matched, the temp file is
unlinked and the original is untouched; if one matched, `os.replace` moves
the temp file onto `users.list` in one atomic step. -/
def delete_ftp_account (ro : RestartOutcome)
    (openpanel_username ftp_username : String) (fs : FsState) : OpResult :=
  match fs.userList with
  | none => ⟨false, "User list file not found", fs⟩
  | some content =>
      let lines := fileLines content
      let found := lines.any fun line => firstField line == ftp_username
      let kept := lines.filter fun line => !(firstField line == ftp_username)
      if !found then
        ⟨false, "FTP account not found", ⟨some content, none⟩⟩
      else
        let fs2 : FsState := ⟨some (String.join kept), none⟩
        match run_docker_restart ro with
        | (true, _) => ⟨true, "FTP account deleted successfully", fs2⟩
        | (false, restart_msg) =>
            ⟨true, "Account deleted, but " ++ restart_msg, fs2⟩

/-- Rewrite of the matching line in `update_ftp_account` (`module/ftp.py`,
lines 322-335): a falsy (`None`/empty) new value keeps the stored field,
and exactly three fields are written back. -/
def updateLine (gph : String → String)
    (ftp_username new_password new_folder line : String) : String :=
  let parts := pySplit (pyStrip line) '|'
  let current_password_hash := parts.getD 1 ""
  let current_folder := parts.getD 2 ""
  let password_hash :=
    if new_password ≠ "" then gph new_password else current_password_hash
  let folder := if new_folder ≠ "" then new_folder else current_folder
  ftp_username ++ "|" ++ password_hash ++ "|" ++ folder ++ "\n"

/-- Model of `update_ftp_account` (`module/ftp.py`, lines 298-374).
`new_password` and `new_folder` are given as strings where `""` stands for
Python `None` as well (both are falsy and the source only tests truthiness).
Path validation runs first when a new folder is given; then the same
stream-rewrite-replace protocol as deletion, rewriting every matching line
with `updateLine`. -/
def update_ftp_account (gph : String → String) (ro : RestartOutcome)
    (cwd : List String)
    (openpanel_username ftp_username new_password new_folder : String)
    (fs : FsState) : OpResult :=
  let vp := validate_ftp_path cwd openpanel_username new_folder
  if new_folder ≠ "" && !vp.1 then ⟨false, vp.2, fs⟩
  else
    match fs.userList with
    | none => ⟨false, "User list file not found", fs⟩
    | some content =>
        let lines := fileLines content
        let found := lines.any fun line => firstField line == ftp_username
        let outLines := lines.map fun line =>
          if firstField line == ftp_username then
            updateLine gph ftp_username new_password new_folder line
          else line
        if !found then
          ⟨false, "FTP account not found", ⟨some content, none⟩⟩
        else
          let fs2 : FsState := ⟨some (String.join outLines), none⟩
          match run_docker_restart ro with
          | (true, _) => ⟨true, "FTP account updated successfully", fs2⟩
          | (false, restart_msg) =>
              ⟨true, "Account updated, but " ++ restart_msg, fs2⟩

/-- The Python `"|".join(parts)` serialisation of one record's fields. -/
def joinFields : List String → String
  | [] => ""
  | [f] => f
  | f :: fs => f ++ "|" ++ joinFields fs

/-- One serialised record line, including its terminating newline: this is
exactly the shape `create_ftp_account` and `update_ftp_account` write. -/
def renderRecord (r : List String) : String :=
  joinFields r ++ "\n"

/-- A record file whose lines are the given records in order. -/
def renderFile : List (List String) → String
  | [] => ""
  | r :: rs => renderRecord r ++ renderFile rs

/-- Well-formedness of one record for the round-trip lemmas: serialising it
and parsing the line back recovers the record.  Fields contain no `'|'` and
no `'\n'`, the serialised line is non-blank and stripping it is the identity
(with or without the trailing newline). -/
def goodRec (r : List String) : Bool :=
  r.all (fun f => !(decide ('|' ∈ f.data)) && !(decide ('\n' ∈ f.data))) &&
    joinFields r != "" && pyStrip (joinFields r) == joinFields r &&
    pyStrip (renderRecord r) == joinFields r

/-- Record-level effect of `update_ftp_account` on one parsed record
(derived from `updateLine`): a matching record is replaced by exactly the
three fields written back, any other record is untouched. -/
def updateRec (gph : String → String)
    (ftp_username new_password new_folder : String) (r : List String) :
    List String :=
  if r.headD "" == ftp_username then
    [ftp_username,
      if new_password ≠ "" then gph new_password else r.getD 1 "",
      if new_folder ≠ "" then new_folder else r.getD 2 ""]
  else r

/-- The first parsed record of the file carrying the given username, if any. -/
def findRec (content : String) (u : String) : Option (List String) :=
  (read_user_list content).find? fun parts => parts.headD "" == u

/-- The stored password hash (second field) of the record for `u`. -/
def storedHash (content u : String) : Option String :=
  (findRec content u).map fun parts => parts.getD 1 ""

/-- The stored home directory (third field) of the record for `u`. -/
def storedDir (content u : String) : Option String :=
  (findRec content u).map fun parts => parts.getD 2 ""

/-- The success message of `create_ftp_account` as a function of the restart
outcome (full success vs degraded success). -/
def createMsg (ro : RestartOutcome) : String :=
  match run_docker_restart ro with
  | (true, _) => "FTP account created successfully"
  | (false, m) => "Account created, but " ++ m

/-- The success message of `delete_ftp_account` as a function of the restart
outcome. -/
def deleteMsg (ro : RestartOutcome) : String :=
  match run_docker_restart ro with
  | (true, _) => "FTP account deleted successfully"
  | (false, m) => "Account deleted, but " ++ m

/-- The success message of `update_ftp_account` as a function of the restart
outcome. -/
def updateMsg (ro : RestartOutcome) : String :=
  match run_docker_restart ro with
  | (true, _) => "FTP account updated successfully"
  | (false, m) => "Account updated, but " ++ m

/-- Five well-formed records: a record file at the configured maximum. -/
def fiveRecs : List (List String) :=
  [["u1", "h1", "/home/alice/d1"], ["u2", "h2", "/home/alice/d2"],
   ["u3", "h3", "/home/alice/d3"], ["u4", "h4", "/home/alice/d4"],
   ["u5", "h5", "/home/alice/d5"]]

/-- A record file holding one legacy single-field record line for `bob`. -/
def oneFieldFile : String := "bob\n"

theorem strData_append (s t : String) : (s ++ t).data = s.data ++ t.data := rfl

theorem strExt {s t : String} (h : s.data = t.data) : s = t := by
  cases s; cases t; exact congrArg String.mk h

theorem strAppend_assoc (s t u : String) : s ++ t ++ u = s ++ (t ++ u) :=
  strExt (by simp [strData_append])

theorem pySplitAux_no_sep (sep : Char) (l : List Char) (h : ∀ c ∈ l, c ≠ sep) :
    ∀ acc, pySplitAux sep acc l = [⟨acc.reverse ++ l⟩] := by
  induction l with
  | nil => intro acc; simp [pySplitAux]
  | cons c cs ih =>
      intro acc
      have hc : ¬ c = sep := h c (by simp)
      rw [pySplitAux, if_neg hc, ih (fun d hd => h d (by simp [hd])) (c :: acc)]
      simp

theorem pySplitAux_sep (sep : Char) (l₁ : List Char) (h : ∀ c ∈ l₁, c ≠ sep) :
    ∀ acc l₂, pySplitAux sep acc (l₁ ++ sep :: l₂) =
      ⟨acc.reverse ++ l₁⟩ :: pySplitAux sep [] l₂ := by
  induction l₁ with
  | nil => intro acc l₂; simp [pySplitAux]
  | cons c cs ih =>
      intro acc l₂
      have hc : ¬ c = sep := h c (by simp)
      rw [List.cons_append, pySplitAux, if_neg hc,
        ih (fun d hd => h d (by simp [hd])) (c :: acc) l₂]
      simp

theorem pySplitlinesAux_nl (l₁ : List Char) (h : '\n' ∉ l₁) :
    ∀ acc l₂, pySplitlinesAux acc (l₁ ++ '\n' :: l₂) =
      ⟨acc.reverse ++ l₁⟩ :: pySplitlinesAux [] l₂ := by
  induction l₁ with
  | nil => intro acc l₂; simp [pySplitlinesAux]
  | cons c cs ih =>
      intro acc l₂
      have hc : ¬ c = '\n' := fun hc => h (by simp [hc])
      rw [List.cons_append, pySplitlinesAux, if_neg hc,
        ih (fun hd => h (by simp [hd])) (c :: acc) l₂]
      simp

theorem fileLinesAux_nl (l₁ : List Char) (h : '\n' ∉ l₁) :
    ∀ acc l₂, fileLinesAux acc (l₁ ++ '\n' :: l₂) =
      ⟨acc.reverse ++ l₁ ++ ['\n']⟩ :: fileLinesAux [] l₂ := by
  induction l₁ with
  | nil => intro acc l₂; simp [fileLinesAux]
  | cons c cs ih =>
      intro acc l₂
      have hc : ¬ c = '\n' := fun hc => h (by simp [hc])
      rw [List.cons_append, fileLinesAux, if_neg hc,
        ih (fun hd => h (by simp [hd])) (c :: acc) l₂]
      simp

theorem joinFields_cons (f : String) (fs : List String) (h : fs ≠ []) :
    joinFields (f :: fs) = f ++ "|" ++ joinFields fs := by
  cases fs with
  | nil => exact absurd rfl h
  | cons g gs => rfl

theorem joinFields_nl_free (r : List String) (h : ∀ f ∈ r, '\n' ∉ f.data) :
    '\n' ∉ (joinFields r).data := by
  induction r with
  | nil => simp [joinFields]
  | cons f fs ih =>
      cases fs with
      | nil => simpa [joinFields] using h f (by simp)
      | cons g gs =>
          rw [joinFields_cons f (g :: gs) (by simp), strData_append,
            strData_append]
          intro hm
          rcases List.mem_append.mp hm with hm | hm
          · rcases List.mem_append.mp hm with hm | hm
            · exact h f (by simp) hm
            · simp at hm
          · exact ih (fun x hx => h x (by simp [hx])) hm

theorem pySplit_joinFields (r : List String) (hne : r ≠ [])
    (h : ∀ f ∈ r, '|' ∉ f.data) : pySplit (joinFields r) '|' = r := by
  induction r with
  | nil => exact absurd rfl hne
  | cons f fs ih =>
      cases fs with
      | nil =>
          unfold pySplit
          rw [show (joinFields [f]).data = f.data from rfl,
            pySplitAux_no_sep '|' f.data
              (fun c hc hc' => (h f (by simp)) (hc' ▸ hc)) []]
          simp
      | cons g gs =>
          unfold pySplit
          rw [joinFields_cons f (g :: gs) (by simp)]
          have hd : ((f ++ "|") ++ joinFields (g :: gs)).data =
              f.data ++ '|' :: (joinFields (g :: gs)).data := by
            simp [strData_append]
          rw [hd, pySplitAux_sep '|' f.data
            (fun c hc hc' => (h f (by simp)) (hc' ▸ hc)) [] _]
          have ih' := ih (by simp) (fun x hx => h x (by simp [hx]))
          unfold pySplit at ih'
          rw [ih']
          simp

theorem renderFile_cons (r : List String) (rs : List (List String)) :
    renderFile (r :: rs) = renderRecord r ++ renderFile rs := rfl

theorem str_empty_append (s : String) : "" ++ s = s :=
  strExt (by simp [strData_append])

theorem str_append_empty (s : String) : s ++ "" = s :=
  strExt (by simp [strData_append])

theorem renderFile_append (rs ss : List (List String)) :
    renderFile (rs ++ ss) = renderFile rs ++ renderFile ss := by
  induction rs with
  | nil => simp [renderFile, str_empty_append]
  | cons r rs ih =>
      rw [List.cons_append, renderFile_cons, renderFile_cons, ih,
        strAppend_assoc]

theorem renderRecord_three (a b c : String) :
    renderRecord [a, b, c] = a ++ "|" ++ b ++ "|" ++ c ++ "\n" := by
  apply strExt
  simp [renderRecord, joinFields, strData_append]

theorem goodRec_pipe {r : List String} (hg : goodRec r = true) :
    ∀ f ∈ r, '|' ∉ f.data := by
  intro f hf
  simp only [goodRec, Bool.and_eq_true, List.all_eq_true] at hg
  have := hg.1.1.1 f hf
  simp only [Bool.and_eq_true, Bool.not_eq_true', decide_eq_false_iff_not]
    at this
  exact this.1

theorem goodRec_nl {r : List String} (hg : goodRec r = true) :
    ∀ f ∈ r, '\n' ∉ f.data := by
  intro f hf
  simp only [goodRec, Bool.and_eq_true, List.all_eq_true] at hg
  have := hg.1.1.1 f hf
  simp only [Bool.and_eq_true, Bool.not_eq_true', decide_eq_false_iff_not]
    at this
  exact this.2

theorem goodRec_join_ne {r : List String} (hg : goodRec r = true) :
    joinFields r ≠ "" := by
  simp only [goodRec, Bool.and_eq_true, bne_iff_ne, ne_eq] at hg
  exact hg.1.1.2

theorem goodRec_strip {r : List String} (hg : goodRec r = true) :
    pyStrip (joinFields r) = joinFields r := by
  simp only [goodRec, Bool.and_eq_true, beq_iff_eq] at hg
  exact hg.1.2

theorem goodRec_stripRec {r : List String} (hg : goodRec r = true) :
    pyStrip (renderRecord r) = joinFields r := by
  simp only [goodRec, Bool.and_eq_true, beq_iff_eq] at hg
  exact hg.2

theorem goodRec_ne_nil {r : List String} (hg : goodRec r = true) : r ≠ [] := by
  intro h
  exact goodRec_join_ne hg (by rw [h]; rfl)

theorem renderRecord_data (r : List String) :
    (renderRecord r).data = (joinFields r).data ++ ['\n'] := by
  simp [renderRecord, strData_append]

theorem fileLines_renderFile (recs : List (List String))
    (h : ∀ r ∈ recs, '\n' ∉ (joinFields r).data) :
    fileLines (renderFile recs) = recs.map renderRecord := by
  induction recs with
  | nil => rfl
  | cons r rs ih =>
      unfold fileLines
      rw [renderFile_cons]
      have hd : (renderRecord r ++ renderFile rs).data =
          (joinFields r).data ++ '\n' :: (renderFile rs).data := by
        rw [strData_append, renderRecord_data, List.append_assoc]
        rfl
      rw [hd, fileLinesAux_nl _ (h r (by simp)) [] _]
      have ih' := ih (fun x hx => h x (by simp [hx]))
      unfold fileLines at ih'
      rw [ih']
      congr 1

theorem pySplitlines_renderFile (recs : List (List String))
    (h : ∀ r ∈ recs, '\n' ∉ (joinFields r).data) :
    pySplitlines (renderFile recs) = recs.map joinFields := by
  induction recs with
  | nil => rfl
  | cons r rs ih =>
      unfold pySplitlines
      rw [renderFile_cons]
      have hd : (renderRecord r ++ renderFile rs).data =
          (joinFields r).data ++ '\n' :: (renderFile rs).data := by
        rw [strData_append, renderRecord_data, List.append_assoc]
        rfl
      rw [hd, pySplitlinesAux_nl _ (h r (by simp)) [] _]
      have ih' := ih (fun x hx => h x (by simp [hx]))
      unfold pySplitlines at ih'
      rw [ih']
      congr 1

theorem read_user_list_renderFile (recs : List (List String))
    (h : ∀ r ∈ recs, goodRec r = true) :
    read_user_list (renderFile recs) = recs := by
  unfold read_user_list
  rw [pySplitlines_renderFile recs
    (fun r hr => joinFields_nl_free r (goodRec_nl (h r hr))), List.filterMap_map]
  induction recs with
  | nil => rfl
  | cons r rs ih =>
      rw [List.filterMap_cons]
      have hg := h r (by simp)
      simp only [Function.comp_apply, goodRec_strip hg,
        if_neg (goodRec_join_ne hg),
        pySplit_joinFields r (goodRec_ne_nil hg) (goodRec_pipe hg)]
      rw [ih (fun x hx => h x (by simp [hx]))]

theorem firstField_renderRecord {r : List String} (hg : goodRec r = true) :
    firstField (renderRecord r) = r.headD "" := by
  unfold firstField
  rw [goodRec_stripRec hg,
    pySplit_joinFields r (goodRec_ne_nil hg) (goodRec_pipe hg)]

theorem str_ne_of_nl {s t : String} (hs : '\n' ∈ s.data)
    (ht : '\n' ∉ t.data) : s ≠ t := by
  intro h
  exact ht (h ▸ hs)

theorem rawFirstField_single {f : String} (hp : '|' ∉ f.data) :
    rawFirstField (renderRecord [f]) = f ++ "\n" := by
  unfold rawFirstField pySplit
  rw [renderRecord_data,
    show (joinFields [f]).data = f.data from rfl,
    pySplitAux_no_sep '|' (f.data ++ ['\n'])
      (by
        intro c hc hc'
        rcases List.mem_append.mp hc with hc | hc
        · exact hp (hc' ▸ hc)
        · simp at hc
          simp [hc] at hc') []]
  simp only [List.headD_cons, List.reverse_nil, List.nil_append]
  exact strExt (by simp [strData_append])

theorem rawFirstField_cons2 {f g : String} {gs : List String}
    (hp : '|' ∉ f.data) :
    rawFirstField (renderRecord (f :: g :: gs)) = f := by
  unfold rawFirstField pySplit
  have hd : (renderRecord (f :: g :: gs)).data =
      f.data ++ '|' :: ((joinFields (g :: gs)).data ++ ['\n']) := by
    rw [renderRecord_data, joinFields_cons f (g :: gs) (by simp)]
    simp [strData_append]
  rw [hd, pySplitAux_sep '|' f.data (fun c hc hc' => hp (hc' ▸ hc)) [] _]
  simp

theorem dupCheck_false {recs : List (List String)} {u : String}
    (hg : ∀ r ∈ recs, goodRec r = true) (hnl : '\n' ∉ u.data)
    (hne : ∀ r ∈ recs, r.headD "" ≠ u) :
    ((fileLines (renderFile recs)).any fun line =>
      rawFirstField line == u) = false := by
  rw [fileLines_renderFile recs
    (fun r hr => joinFields_nl_free r (goodRec_nl (hg r hr)))]
  rw [List.any_eq_false]
  intro line hline
  rcases List.mem_map.mp hline with ⟨r, hr, rfl⟩
  simp only [beq_iff_eq]
  rcases r with _ | ⟨f, _ | ⟨g, gs⟩⟩
  · exact absurd rfl (goodRec_ne_nil (hg _ hr))
  · rw [rawFirstField_single (goodRec_pipe (hg _ hr) f (by simp))]
    exact str_ne_of_nl (by simp [strData_append]) hnl
  · rw [rawFirstField_cons2 (goodRec_pipe (hg _ hr) f (by simp))]
    exact hne _ hr

theorem dupCheck_true {recs : List (List String)} {u : String}
    (hg : ∀ r ∈ recs, goodRec r = true) {r : List String} (hr : r ∈ recs)
    (hhead : r.headD "" = u) (hlen : 2 ≤ r.length) :
    ((fileLines (renderFile recs)).any fun line =>
      rawFirstField line == u) = true := by
  rw [fileLines_renderFile recs
    (fun x hx => joinFields_nl_free x (goodRec_nl (hg x hx)))]
  rw [List.any_eq_true]
  refine ⟨renderRecord r, List.mem_map_of_mem _ hr, ?_⟩
  rcases r with _ | ⟨f, _ | ⟨g, gs⟩⟩
  · simp at hlen
  · simp at hlen
  · rw [rawFirstField_cons2 (goodRec_pipe (hg _ hr) f (by simp))]
    simp only [List.headD_cons] at hhead
    simp [hhead]

theorem anyCongr {α : Type} {l : List α} {p q : α → Bool}
    (h : ∀ x ∈ l, p x = q x) : l.any p = l.any q := by
  induction l with
  | nil => rfl
  | cons a l ih =>
      simp only [List.any_cons, h a (by simp)]
      rw [ih (fun x hx => h x (by simp [hx]))]

theorem anyMap {α β : Type} (f : α → β) (l : List α) (p : β → Bool) :
    (l.map f).any p = l.any fun a => p (f a) := by
  induction l with
  | nil => rfl
  | cons a l ih => simp only [List.map_cons, List.any_cons, ih]

theorem strJoin_foldl (l : List String) (s : String) :
    l.foldl (· ++ ·) s = s ++ l.foldl (· ++ ·) "" := by
  induction l generalizing s with
  | nil => simp [str_append_empty]
  | cons a l ih =>
      simp only [List.foldl_cons]
      rw [ih (s ++ a), ih ("" ++ a), str_empty_append, strAppend_assoc]

theorem strJoin_cons (a : String) (l : List String) :
    String.join (a :: l) = a ++ String.join l := by
  unfold String.join
  simp only [List.foldl_cons]
  rw [strJoin_foldl l ("" ++ a), str_empty_append]

theorem strJoin_map_renderRecord (recs : List (List String)) :
    String.join (recs.map renderRecord) = renderFile recs := by
  induction recs with
  | nil => rfl
  | cons r rs ih => rw [List.map_cons, strJoin_cons, ih, renderFile_cons]

theorem anyFound_eq {u : String} (recs : List (List String))
    (hg : ∀ r ∈ recs, goodRec r = true) :
    ((fileLines (renderFile recs)).any fun line => firstField line == u) =
      recs.any fun r => r.headD "" == u := by
  rw [fileLines_renderFile recs
    (fun x hx => joinFields_nl_free x (goodRec_nl (hg x hx))),
    anyMap renderRecord recs]
  exact anyCongr fun r hr => by
    simp only [firstField_renderRecord (hg r hr)]

theorem keptFilter_eq {u : String} (recs : List (List String))
    (hg : ∀ r ∈ recs, goodRec r = true) :
    ((fileLines (renderFile recs)).filter fun line =>
        !(firstField line == u)) =
      (recs.filter fun r => !(r.headD "" == u)).map renderRecord := by
  rw [fileLines_renderFile recs
    (fun x hx => joinFields_nl_free x (goodRec_nl (hg x hx))),
    List.filter_map renderRecord recs]
  congr 1
  exact List.filter_congr fun r hr => by
    simp only [Function.comp_apply, firstField_renderRecord (hg r hr)]

theorem updateLine_renderRecord (gph : String → String)
    (u np nf : String) {r : List String} (hg : goodRec r = true) :
    updateLine gph u np nf (renderRecord r) =
      renderRecord [u, if np ≠ "" then gph np else r.getD 1 "",
        if nf ≠ "" then nf else r.getD 2 ""] := by
  unfold updateLine
  rw [goodRec_stripRec hg,
    pySplit_joinFields r (goodRec_ne_nil hg) (goodRec_pipe hg),
    renderRecord_three]

theorem outLines_eq (gph : String → String) (u np nf : String)
    (recs : List (List String)) (hg : ∀ r ∈ recs, goodRec r = true) :
    ((fileLines (renderFile recs)).map fun line =>
        if firstField line == u then updateLine gph u np nf line else line) =
      (recs.map (updateRec gph u np nf)).map renderRecord := by
  rw [fileLines_renderFile recs
    (fun x hx => joinFields_nl_free x (goodRec_nl (hg x hx))),
    List.map_map, List.map_map]
  apply List.map_congr_left
  intro r hr
  simp only [Function.comp_apply]
  unfold updateRec
  by_cases hm : r.headD "" == u
  · rw [if_pos (by rw [firstField_renderRecord (hg r hr)]; exact hm), hm,
      if_pos rfl, updateLine_renderRecord gph u np nf (hg r hr)]
  · rw [if_neg (by rw [firstField_renderRecord (hg r hr)]; exact hm),
      if_neg (by exact hm)]

theorem delete_render (ro : RestartOutcome) (o u : String)
    (recs : List (List String)) (t : Option String)
    (hg : ∀ r ∈ recs, goodRec r = true)
    (hfound : (recs.any fun r => r.headD "" == u) = true) :
    delete_ftp_account ro o u ⟨some (renderFile recs), t⟩ =
      ⟨true, deleteMsg ro,
        ⟨some (renderFile (recs.filter fun r => !(r.headD "" == u))),
          none⟩⟩ := by
  rcases hro : run_docker_restart ro with ⟨b, m⟩
  unfold delete_ftp_account deleteMsg
  simp only [anyFound_eq recs hg, hfound, Bool.not_true, if_false,
    keptFilter_eq recs hg, strJoin_map_renderRecord, hro]
  cases b <;> rfl

theorem update_render (gph : String → String) (ro : RestartOutcome)
    (cwd : List String) (o u np nf : String)
    (recs : List (List String)) (t : Option String)
    (hg : ∀ r ∈ recs, goodRec r = true)
    (hvalid : nf ≠ "" → (validate_ftp_path cwd o nf).1 = true)
    (hfound : (recs.any fun r => r.headD "" == u) = true) :
    update_ftp_account gph ro cwd o u np nf ⟨some (renderFile recs), t⟩ =
      ⟨true, updateMsg ro,
        ⟨some (renderFile (recs.map (updateRec gph u np nf))), none⟩⟩ := by
  rcases hro : run_docker_restart ro with ⟨b, m⟩
  unfold update_ftp_account updateMsg
  have hcond : (decide (nf ≠ "") && !(validate_ftp_path cwd o nf).1) = false := by
    by_cases hnf : nf = ""
    · simp [hnf]
    · simp [hnf, hvalid hnf]
  simp only [hcond, Bool.false_eq_true, if_false,
    anyFound_eq recs hg, hfound, Bool.not_true,
    outLines_eq gph u np nf recs hg, strJoin_map_renderRecord, hro]
  cases b <;> rfl

theorem create_render (gph : String → String) (ro : RestartOutcome)
    (cwd : List String) (o u pw f : String) (recs : List (List String))
    (t : Option String)
    (ho : ¬ o = "") (hu : ¬ u = "") (hpw : ¬ pw = "") (hf : ¬ f = "")
    (hvalid : (validate_ftp_path cwd o f).1 = true)
    (hg : ∀ r ∈ recs, goodRec r = true) (hnl : '\n' ∉ u.data)
    (hne : ∀ r ∈ recs, r.headD "" ≠ u) :
    create_ftp_account gph ro cwd o u pw f ⟨some (renderFile recs), t⟩ =
      ⟨true, createMsg ro,
        ⟨some (renderFile (recs ++ [[u, gph pw, f]])), t⟩⟩ := by
  rcases hro : run_docker_restart ro with ⟨b, m⟩
  have hngt : renderFile (recs ++ [[u, gph pw, f]]) =
      renderFile recs ++ (u ++ "|" ++ gph pw ++ "|" ++ f ++ "\n") := by
    rw [renderFile_append, ← renderRecord_three]
    show _ = renderFile recs ++ renderRecord [u, gph pw, f]
    rw [show renderFile [[u, gph pw, f]] =
      renderRecord [u, gph pw, f] ++ renderFile [] from rfl,
      show renderFile ([] : List (List String)) = "" from rfl,
      str_append_empty]
  unfold create_ftp_account
  simp only [ho, hu, hpw, hf, decide_False, Bool.or_self, Bool.or_false,
    Bool.false_or, Bool.false_eq_true, if_false, hvalid, Bool.not_true,
    dupCheck_false hg hnl hne, Option.getD_some, hro, hngt]
  unfold createMsg
  rw [hro]
  cases b <;> rfl

theorem commonStem_eq_left_iff (a : List String) :
    ∀ b, commonStem a b = a ↔ ∃ tl, b = a ++ tl := by
  induction a with
  | nil =>
      intro b
      constructor
      · intro _; exact ⟨b, rfl⟩
      · intro _; cases b <;> rfl
  | cons x as ih =>
      intro b
      cases b with
      | nil =>
          constructor
          · intro h; exact absurd h.symm (by simp [commonStem])
          · rintro ⟨tl, htl⟩; simp at htl
      | cons y bs =>
          by_cases hxy : x = y
          · subst hxy
            rw [show commonStem (x :: as) (x :: bs) =
              x :: commonStem as bs from by simp [commonStem]]
            constructor
            · intro h
              rcases (ih bs).mp (List.cons_injective.eq_iff.mp h) with ⟨tl, htl⟩
              exact ⟨tl, by simp [htl]⟩
            · rintro ⟨tl, htl⟩
              simp only [List.cons_append, List.cons.injEq] at htl
              rcases htl with ⟨_, htl⟩
              rw [(ih bs).mpr ⟨tl, htl⟩]
          · rw [show commonStem (x :: as) (y :: bs) = [] from by
              simp [commonStem, hxy]]
            constructor
            · intro h; exact absurd h.symm (by simp)
            · rintro ⟨tl, htl⟩
              simp only [List.cons_append, List.cons.injEq] at htl
              exact absurd htl.1.symm hxy

theorem strNe_of_dataLen {s t : String}
    (h : s.data.length ≠ t.data.length) : s ≠ t :=
  fun e => h (by rw [e])

theorem pySplit_home_comp {comp : String} (hs : '/' ∉ comp.data) :
    pySplit ("/home/" ++ comp) '/' = ["", "home", comp] := by
  unfold pySplit
  rw [show ("/home/" ++ comp).data =
    [] ++ '/' :: ("home".data ++ '/' :: comp.data) from rfl]
  rw [pySplitAux_sep '/' [] (by simp) [] _]
  rw [pySplitAux_sep '/' "home".data (by decide) [] _]
  rw [pySplitAux_no_sep '/' comp.data (fun c hc hc' => hs (hc' ▸ hc)) []]
  rfl

theorem normAbsAux_home_comp {comp : String} (h0 : comp ≠ "")
    (h1 : comp ≠ ".") (h2 : comp ≠ "..") :
    normAbsAux [] ["", "home", comp] = ["home", comp] := by
  simp [normAbsAux, h0, h1, h2]

theorem pyAbspath_home_comp (cwd : List String) {comp : String}
    (hs : '/' ∉ comp.data) (h0 : comp ≠ "") (h1 : comp ≠ ".")
    (h2 : comp ≠ "..") :
    pyAbspath cwd ("/home/" ++ comp) = ["home", comp] := by
  unfold pyAbspath
  rw [if_pos (show ("/home/" ++ comp).data.head? = some '/' from rfl),
    pySplit_home_comp hs, normAbsAux_home_comp h0 h1 h2]

theorem create_ro_inv (gph : String → String) (cwd : List String)
    (o u pw f : String) (fs : FsState) (ro ro' : RestartOutcome) :
    (create_ftp_account gph ro cwd o u pw f fs).success =
      (create_ftp_account gph ro' cwd o u pw f fs).success ∧
    (create_ftp_account gph ro cwd o u pw f fs).fs =
      (create_ftp_account gph ro' cwd o u pw f fs).fs := by
  rcases hro : run_docker_restart ro with ⟨b, m⟩
  rcases hro' : run_docker_restart ro' with ⟨b', m'⟩
  refine ⟨?_, ?_⟩ <;>
  · simp only [create_ftp_account, hro, hro']
    repeat' split <;> try rfl

theorem delete_ro_inv (o u : String) (fs : FsState)
    (ro ro' : RestartOutcome) :
    (delete_ftp_account ro o u fs).success =
      (delete_ftp_account ro' o u fs).success ∧
    (delete_ftp_account ro o u fs).fs =
      (delete_ftp_account ro' o u fs).fs := by
  rcases hro : run_docker_restart ro with ⟨b, m⟩
  rcases hro' : run_docker_restart ro' with ⟨b', m'⟩
  refine ⟨?_, ?_⟩ <;>
  · simp only [delete_ftp_account, hro, hro']
    repeat' split <;> try rfl

theorem update_ro_inv (gph : String → String) (cwd : List String)
    (o u np nf : String) (fs : FsState) (ro ro' : RestartOutcome) :
    (update_ftp_account gph ro cwd o u np nf fs).success =
      (update_ftp_account gph ro' cwd o u np nf fs).success ∧
    (update_ftp_account gph ro cwd o u np nf fs).fs =
      (update_ftp_account gph ro' cwd o u np nf fs).fs := by
  rcases hro : run_docker_restart ro with ⟨b, m⟩
  rcases hro' : run_docker_restart ro' with ⟨b', m'⟩
  refine ⟨?_, ?_⟩ <;>
  · simp only [update_ftp_account, hro, hro']
    repeat' split <;> try rfl

theorem create_msg_degraded (gph : String → String) (cwd : List String)
    (o u pw f : String) (fs : FsState) (ro : RestartOutcome)
    (hfail : (run_docker_restart ro).1 = false)
    (hsucc : (create_ftp_account gph ro cwd o u pw f fs).success = true) :
    (create_ftp_account gph ro cwd o u pw f fs).message =
      "Account created, but " ++ (run_docker_restart ro).2 := by
  rcases hro : run_docker_restart ro with ⟨b, m⟩
  rw [hro] at hfail
  subst hfail
  simp only [create_ftp_account, hro] at hsucc ⊢
  repeat' split at hsucc <;> simp_all

theorem delete_msg_degraded (o u : String) (fs : FsState)
    (ro : RestartOutcome)
    (hfail : (run_docker_restart ro).1 = false)
    (hsucc : (delete_ftp_account ro o u fs).success = true) :
    (delete_ftp_account ro o u fs).message =
      "Account deleted, but " ++ (run_docker_restart ro).2 := by
  rcases hro : run_docker_restart ro with ⟨b, m⟩
  rw [hro] at hfail
  subst hfail
  simp only [delete_ftp_account, hro] at hsucc ⊢
  repeat' split at hsucc <;> try simp_all
  all_goals repeat' split <;> try simp_all
  all_goals tauto

theorem update_msg_degraded (gph : String → String) (cwd : List String)
    (o u np nf : String) (fs : FsState) (ro : RestartOutcome)
    (hfail : (run_docker_restart ro).1 = false)
    (hsucc : (update_ftp_account gph ro cwd o u np nf fs).success = true) :
    (update_ftp_account gph ro cwd o u np nf fs).message =
      "Account updated, but " ++ (run_docker_restart ro).2 := by
  rcases hro : run_docker_restart ro with ⟨b, m⟩
  rw [hro] at hfail
  subst hfail
  simp only [update_ftp_account, hro] at hsucc ⊢
  repeat' split at hsucc <;> try simp_all
  all_goals repeat' split <;> try simp_all
  all_goals tauto

theorem str_append_ne_of_head {a c : Char} (pre m suc : String)
    (h1 : pre.data.head? = some a) (h2 : suc.data.head? = some c)
    (hne : a ≠ c) : pre ++ m ≠ suc := by
  intro h
  have hd := congrArg String.data h
  rw [strData_append] at hd
  cases hp : pre.data with
  | nil => rw [hp] at h1; simp at h1
  | cons x xs =>
      rw [hp] at h1 hd
      simp only [List.head?_cons, Option.some.injEq] at h1
      rw [List.cons_append] at hd
      have hh := congrArg List.head? hd
      rw [h2] at hh
      simp only [List.head?_cons, Option.some.injEq] at hh
      exact hne (h1 ▸ hh ▸ rfl)

/-- C2: path validation (shared by create and update) accepts a target folder
exactly when its canonical absolute path (`os.path.abspath`) is equal to or
nested under `/home/{owner}` — containment of canonical path components, not
string-prefix matching — and in particular `/home/{owner}-evil` is rejected
(the returned flag is false, which both callers turn into an invalid-path
failure). -/
theorem spec_c2_path_containment (cwd : List String)
    (username folder : String) (hs : '/' ∉ username.data)
    (h0 : username ≠ "") (h1 : username ≠ ".") (h2 : username ≠ "..") :
    ((validate_ftp_path cwd username folder).1 = true ↔
      ∃ tl, pyAbspath cwd folder =
        pyAbspath cwd ("/home/" ++ username) ++ tl) ∧
    (validate_ftp_path cwd username
      ("/home/" ++ username ++ "-evil")).1 = false := by
  constructor
  · by_cases hc : commonStem (pyAbspath cwd ("/home/" ++ username))
        (pyAbspath cwd folder) = pyAbspath cwd ("/home/" ++ username)
    · simp only [validate_ftp_path, if_pos hc, true_iff]
      exact (commonStem_eq_left_iff _ _).mp hc
    · simp only [validate_ftp_path, if_neg hc, Bool.false_eq_true, false_iff]
      intro htl
      exact hc ((commonStem_eq_left_iff _ _).mpr htl)
  · have hs' : '/' ∉ (username ++ "-evil").data := by
      rw [strData_append]
      intro hm
      rcases List.mem_append.mp hm with hm | hm
      · exact hs hm
      · simp at hm
    have hlen : (username ++ "-evil").data.length = username.data.length + 5 := by
      rw [strData_append]
      simp
    have h0' : username ++ "-evil" ≠ "" := strNe_of_dataLen (by simp [hlen])
    have h1' : username ++ "-evil" ≠ "." := strNe_of_dataLen (by simp [hlen])
    have h2' : username ++ "-evil" ≠ ".." := by
      apply strNe_of_dataLen
      rw [hlen]
      intro hx
      have : (".." : String).data.length = 2 := rfl
      omega
    have hne : username ≠ username ++ "-evil" :=
      strNe_of_dataLen (by simp [hlen])
    rw [strAppend_assoc]
    unfold validate_ftp_path
    rw [pyAbspath_home_comp cwd hs' h0' h1' h2',
      pyAbspath_home_comp cwd hs h0 h1 h2]
    have hcs : commonStem ["home", username] ["home", username ++ "-evil"] =
        ["home"] := by
      simp [commonStem, hne]
    rw [if_neg (by rw [hcs]; simp)]

/-- Witness for C2 at a concrete owner: a folder inside the home is
accepted, the string-prefix-extension folder is rejected. -/
theorem spec_c2_path_containment_witness :
    (validate_ftp_path [] "alice" "/home/alice/web").1 = true ∧
    (validate_ftp_path [] "alice" ("/home/" ++ "alice" ++ "-evil")).1 =
      false :=
  ⟨(spec_c2_path_containment [] "alice" "/home/alice/web" (by decide)
      (by decide) (by decide) (by decide)).1.mpr ⟨["web"], by decide⟩,
    (spec_c2_path_containment [] "alice" "/home/alice/web" (by decide)
      (by decide) (by decide) (by decide)).2⟩

/-- C1 (counterexample): with five records on file, `can_create_ftp_account`
is false, yet `create_ftp_account` called directly still succeeds and appends
a sixth record — it performs no limit check and does not fail with a
limit-exceeded error, contradicting the claim. -/
theorem spec_c1_counterexample :
    can_create_ftp_account (some (renderFile fiveRecs)) = false ∧
    (create_ftp_account (fun _ => "h6") .ok [] "alice" "u6" "pw6"
      "/home/alice/d6" ⟨some (renderFile fiveRecs), none⟩).success = true ∧
    (create_ftp_account (fun _ => "h6") .ok [] "alice" "u6" "pw6"
      "/home/alice/d6" ⟨some (renderFile fiveRecs), none⟩).fs.userList =
      some (renderFile (fiveRecs ++ [["u6", "h6", "/home/alice/d6"]])) ∧
    (create_ftp_account (fun _ => "h6") .ok [] "alice" "u6" "pw6"
      "/home/alice/d6" ⟨some (renderFile fiveRecs), none⟩).fs.userList ≠
      some (renderFile fiveRecs) := by decide

/-- C1 (amended): when the Record File already holds at least the configured
maximum of records, `can_create_ftp_account` is false (it is exactly the
predicate `count < max`), but `create_ftp_account` itself enforces no limit:
a call with valid parameters, a valid path and a fresh username still
succeeds and appends a further record.  The limit is enforced only by the
`/ftp/create` route handler, which consults `can_create_ftp_account` before
invoking `create_ftp_account`. -/
theorem spec_c1_limit_not_in_create (gph : String → String)
    (ro : RestartOutcome) (cwd : List String) (o u pw f : String)
    (recs : List (List String)) (t : Option String)
    (ho : ¬ o = "") (hu : ¬ u = "") (hpw : ¬ pw = "") (hf : ¬ f = "")
    (hvalid : (validate_ftp_path cwd o f).1 = true)
    (hg : ∀ r ∈ recs, goodRec r = true) (hnl : '\n' ∉ u.data)
    (hne : ∀ r ∈ recs, r.headD "" ≠ u)
    (hfull : can_create_ftp_account (some (renderFile recs)) = false) :
    get_max_ftp_accounts ≤
      count_user_ftp_accounts (some (renderFile recs)) ∧
    create_ftp_account gph ro cwd o u pw f ⟨some (renderFile recs), t⟩ =
      ⟨true, createMsg ro,
        ⟨some (renderFile (recs ++ [[u, gph pw, f]])), t⟩⟩ := by
  constructor
  · have := hfull
    unfold can_create_ftp_account at this
    simpa [Nat.not_lt] using this
  · exact create_render gph ro cwd o u pw f recs t ho hu hpw hf hvalid hg
      hnl hne

/-- Witness for the amended C1 at the five-record file. -/
theorem spec_c1_limit_not_in_create_witness :
    get_max_ftp_accounts ≤
      count_user_ftp_accounts (some (renderFile fiveRecs)) ∧
    create_ftp_account (fun _ => "h6") .ok [] "alice" "u6" "pw6"
        "/home/alice/d6" ⟨some (renderFile fiveRecs), none⟩ =
      ⟨true, createMsg .ok,
        ⟨some (renderFile (fiveRecs ++ [["u6", "h6", "/home/alice/d6"]])),
          none⟩⟩ :=
  spec_c1_limit_not_in_create (fun _ => "h6") .ok [] "alice" "u6" "pw6"
    "/home/alice/d6" fiveRecs none (by decide) (by decide) (by decide)
    (by decide) (by decide) (by decide) (by decide) (by decide) (by decide)

/-- C3 (counterexample): the file `"bob\n"` holds a record line whose first
field is `bob`, yet `create_ftp_account` for `bob` succeeds and appends a
second record, because its duplicate check splits the raw line without
stripping the newline (`line.split("|")[0]` is `"bob\n"`, not `"bob"`),
contradicting the claim that such a create always fails and leaves the file
unchanged. -/
theorem spec_c3_counterexample :
    read_user_list oneFieldFile = [["bob"]] ∧
    (create_ftp_account (fun _ => "hh") .ok [] "alice" "bob" "pw"
      "/home/alice/x" ⟨some oneFieldFile, none⟩).success = true ∧
    (create_ftp_account (fun _ => "hh") .ok [] "alice" "bob" "pw"
      "/home/alice/x" ⟨some oneFieldFile, none⟩).fs.userList =
      some "bob\nbob|hh|/home/alice/x\n" := by decide

/-- C3 (amended): when some stored record has `ftp_username` as its first
field and at least two fields — in particular every record that
`create_ftp_account` or `update_ftp_account` itself writes, since those
always write three `'|'`-separated fields — a further create for that
username fails with the duplicate-account error and leaves the Record File
(and temp file) unchanged.  Only a legacy single-field line terminated by a
newline escapes the raw-line duplicate check. -/
theorem spec_c3_duplicate_amended (gph : String → String)
    (ro : RestartOutcome) (cwd : List String) (o u pw f : String)
    (recs : List (List String)) (t : Option String)
    (ho : ¬ o = "") (hu : ¬ u = "") (hpw : ¬ pw = "") (hf : ¬ f = "")
    (hvalid : (validate_ftp_path cwd o f).1 = true)
    (hg : ∀ r ∈ recs, goodRec r = true)
    (hdup : ∃ r ∈ recs, r.headD "" = u ∧ 2 ≤ r.length) :
    create_ftp_account gph ro cwd o u pw f ⟨some (renderFile recs), t⟩ =
      ⟨false, "FTP username already exists",
        ⟨some (renderFile recs), t⟩⟩ := by
  obtain ⟨r, hr, hhead, hlen⟩ := hdup
  have hd := dupCheck_true hg hr hhead hlen
  simp only [create_ftp_account, ho, hu, hpw, hf, decide_False,
    Bool.or_self, Bool.or_false, Bool.false_or, Bool.false_eq_true,
    if_false, hvalid, Bool.not_true, hd, if_true]

/-- Witness for the amended C3: a duplicate create against a three-field
record fails and changes nothing. -/
theorem spec_c3_duplicate_amended_witness :
    create_ftp_account (fun _ => "hh") .ok [] "alice" "bob" "pw"
        "/home/alice/x"
        ⟨some (renderFile [["bob", "h0", "/home/alice/b"]]), none⟩ =
      ⟨false, "FTP username already exists",
        ⟨some (renderFile [["bob", "h0", "/home/alice/b"]]), none⟩⟩ :=
  spec_c3_duplicate_amended (fun _ => "hh") .ok [] "alice" "bob" "pw"
    "/home/alice/x" [["bob", "h0", "/home/alice/b"]] none (by decide)
    (by decide) (by decide) (by decide) (by decide) (by decide)
    ⟨["bob", "h0", "/home/alice/b"], by decide, by decide, by decide⟩

theorem findCongr {α : Type} {l : List α} {p q : α → Bool}
    (h : ∀ x ∈ l, p x = q x) : l.find? p = l.find? q := by
  induction l with
  | nil => rfl
  | cons a l ih =>
      rw [List.find?_cons, List.find?_cons, h a (by simp),
        ih (fun x hx => h x (by simp [hx]))]

theorem updateRec_headD (gph : String → String) (u np nf : String)
    (r : List String) :
    ((updateRec gph u np nf r).headD "" == u) = (r.headD "" == u) := by
  unfold updateRec
  cases hb : (r.headD "" == u)
  · simpa using hb
  · simp

theorem find?_updateRec (gph : String → String) (u np nf : String)
    (recs : List (List String)) :
    (recs.find?
      ((fun parts => parts.headD "" == u) ∘ updateRec gph u np nf)) =
      recs.find? fun parts => parts.headD "" == u :=
  findCongr fun r _ => by simp only [Function.comp_apply, updateRec_headD]

/-- C4: update implements partial-update semantics.  With the password
omitted (falsy), the stored password hash of the updated record is
unchanged; with the home directory omitted, the stored home directory of the
updated record is unchanged. -/
theorem spec_c4_merge_update (gph : String → String) (ro : RestartOutcome)
    (cwd : List String) (o u np nf : String) (recs : List (List String))
    (t : Option String)
    (hg : ∀ r ∈ recs, goodRec r = true)
    (hfound : (recs.any fun r => r.headD "" == u) = true)
    (hvnf : nf ≠ "" → (validate_ftp_path cwd o nf).1 = true)
    (hgF : ∀ r ∈ recs, goodRec (updateRec gph u "" nf r) = true)
    (hgP : ∀ r ∈ recs, goodRec (updateRec gph u np "" r) = true) :
    (∀ post, (update_ftp_account gph ro cwd o u "" nf
        ⟨some (renderFile recs), t⟩).fs.userList = some post →
      storedHash post u = storedHash (renderFile recs) u) ∧
    (∀ post, (update_ftp_account gph ro cwd o u np ""
        ⟨some (renderFile recs), t⟩).fs.userList = some post →
      storedDir post u = storedDir (renderFile recs) u) := by
  have hv0 : ("" : String) ≠ "" → (validate_ftp_path cwd o "").1 = true :=
    fun h => absurd rfl h
  constructor
  · intro post hpost
    rw [update_render gph ro cwd o u "" nf recs t hg hvnf hfound] at hpost
    simp only [Option.some.injEq] at hpost
    subst hpost
    unfold storedHash findRec
    rw [read_user_list_renderFile _ (by
      intro r' hr'
      rcases List.mem_map.mp hr' with ⟨r, hr, rfl⟩
      exact hgF r hr)]
    rw [read_user_list_renderFile recs hg]
    rw [List.find?_map (updateRec gph u "" nf) recs, find?_updateRec]
    cases hfind : recs.find? (fun parts => parts.headD "" == u) with
    | none => rfl
    | some r =>
        have hp := List.find?_some hfind
        simp only [Option.map_some']
        unfold updateRec
        rw [if_pos hp]
        simp
  · intro post hpost
    rw [update_render gph ro cwd o u np "" recs t hg hv0 hfound] at hpost
    simp only [Option.some.injEq] at hpost
    subst hpost
    unfold storedDir findRec
    rw [read_user_list_renderFile _ (by
      intro r' hr'
      rcases List.mem_map.mp hr' with ⟨r, hr, rfl⟩
      exact hgP r hr)]
    rw [read_user_list_renderFile recs hg]
    rw [List.find?_map (updateRec gph u np "") recs, find?_updateRec]
    cases hfind : recs.find? (fun parts => parts.headD "" == u) with
    | none => rfl
    | some r =>
        have hp := List.find?_some hfind
        simp only [Option.map_some']
        unfold updateRec
        rw [if_pos hp]
        simp

/-- Witness for C4: updating only the folder keeps the stored hash, and
updating only the password keeps the stored folder. -/
theorem spec_c4_merge_update_witness :
    storedHash "bob|h0|/home/alice/new\n" "bob" =
      storedHash (renderFile [["bob", "h0", "/home/alice/b"]]) "bob" ∧
    storedDir "bob|h9|/home/alice/b\n" "bob" =
      storedDir (renderFile [["bob", "h0", "/home/alice/b"]]) "bob" :=
  ⟨(spec_c4_merge_update (fun _ => "h9") .ok [] "alice" "bob" "pw9"
      "/home/alice/new" [["bob", "h0", "/home/alice/b"]] none (by decide)
      (by decide) (fun _ => by decide) (by decide) (by decide)).1
      "bob|h0|/home/alice/new\n" (by decide),
    (spec_c4_merge_update (fun _ => "h9") .ok [] "alice" "bob" "pw9"
      "/home/alice/new" [["bob", "h0", "/home/alice/b"]] none (by decide)
      (by decide) (fun _ => by decide) (by decide) (by decide)).2
      "bob|h9|/home/alice/b\n" (by decide)⟩

/-- C5: delete fails with the not-found error both when the Record File is
absent and when no record line has `ftp_username` as its first (stripped)
field; in the latter case the Record File content is byte-identical to
before the call and the temporary file is gone (the model records the final
temp-file state `none` after the `os.unlink` on that path). -/
theorem spec_c5_delete_notfound (ro : RestartOutcome) (o u : String)
    (fs : FsState) :
    (fs.userList = none →
      delete_ftp_account ro o u fs =
        ⟨false, "User list file not found", fs⟩) ∧
    (∀ content, fs.userList = some content →
      ((fileLines content).all fun l => !(firstField l == u)) = true →
      delete_ftp_account ro o u fs =
        ⟨false, "FTP account not found", ⟨some content, none⟩⟩) := by
  constructor
  · intro h
    unfold delete_ftp_account
    rw [h]
  · intro content h hall
    have hfound : ((fileLines content).any fun l => firstField l == u) =
        false := by
      rw [List.any_eq_false]
      intro x hx
      have hx' := List.all_eq_true.mp hall x hx
      simp only [Bool.not_eq_true'] at hx'
      simp [hx']
    unfold delete_ftp_account
    rw [h]
    simp [hfound]

/-- Witness for C5 at concrete states: deleting `zz` from the one-record
file `"a|h|d\n"` fails with the not-found error and leaves the content
byte-identical with no temp file, and deleting from an absent file fails
with the file-not-found error. -/
theorem spec_c5_delete_notfound_witness :
    delete_ftp_account .ok "alice" "zz" ⟨some "a|h|d\n", none⟩ =
      ⟨false, "FTP account not found", ⟨some "a|h|d\n", none⟩⟩ ∧
    delete_ftp_account .ok "alice" "zz" ⟨none, none⟩ =
      ⟨false, "User list file not found", ⟨none, none⟩⟩ :=
  ⟨(spec_c5_delete_notfound .ok "alice" "zz"
      ⟨some "a|h|d\n", none⟩).2 "a|h|d\n" rfl (by decide),
    (spec_c5_delete_notfound .ok "alice" "zz" ⟨none, none⟩).1 rfl⟩

/-- C6: successful delete and update rewrite the whole file: the new content
is exactly the concatenation, in original order, of the surviving raw lines
(delete keeps every non-matching line byte-for-byte, a sublist of the
original lines; update maps the matching lines through the three-field
rewrite and passes every other raw line through unchanged), and the final
state carries no temporary file — the temp file was renamed over the
original in the single atomic `os.replace` step. -/
theorem spec_c6_rewrite_protocol (gph : String → String)
    (ro : RestartOutcome) (cwd : List String) (o u np nf content : String)
    (t : Option String) :
    (((fileLines content).any fun l => firstField l == u) = true →
      (delete_ftp_account ro o u ⟨some content, t⟩).fs =
        ⟨some (String.join ((fileLines content).filter fun l =>
          !(firstField l == u))), none⟩ ∧
      List.Sublist ((fileLines content).filter fun l =>
        !(firstField l == u)) (fileLines content)) ∧
    (((fileLines content).any fun l => firstField l == u) = true →
      (nf ≠ "" → (validate_ftp_path cwd o nf).1 = true) →
      (update_ftp_account gph ro cwd o u np nf ⟨some content, t⟩).fs =
        ⟨some (String.join ((fileLines content).map fun l =>
          if firstField l == u then updateLine gph u np nf l else l)),
          none⟩ ∧
      ∀ l ∈ fileLines content, ¬ firstField l = u →
        (if firstField l == u then updateLine gph u np nf l else l) = l) := by
  constructor
  · intro hfound
    constructor
    · rcases hro : run_docker_restart ro with ⟨b, m⟩
      unfold delete_ftp_account
      simp only [hfound, Bool.not_true, if_false, hro]
      cases b <;> rfl
    · exact List.filter_sublist _
  · intro hfound hv
    have hcond : (decide (nf ≠ "") &&
        !(validate_ftp_path cwd o nf).1) = false := by
      by_cases hnf : nf = ""
      · simp [hnf]
      · simp [hnf, hv hnf]
    constructor
    · rcases hro : run_docker_restart ro with ⟨b, m⟩
      unfold update_ftp_account
      simp only [hcond, Bool.false_eq_true, if_false, hfound,
        Bool.not_true, hro]
      cases b <;> rfl
    · intro l _ hne
      rw [if_neg (by simp [hne])]

/-- Witness for C6 at a concrete two-record file: the rewritten contents
after a delete of `a` and after a folder-only update of `a`, with no temp
file left, and the survivors a sublist of the original lines. -/
theorem spec_c6_rewrite_protocol_witness :
    ((delete_ftp_account .timeoutExpired "alice" "a"
        ⟨some "a|h|d\nb|g|e\n", none⟩).fs =
      ⟨some (String.join ((fileLines "a|h|d\nb|g|e\n").filter fun l =>
        !(firstField l == "a"))), none⟩ ∧
      List.Sublist ((fileLines "a|h|d\nb|g|e\n").filter fun l =>
        !(firstField l == "a")) (fileLines "a|h|d\nb|g|e\n")) ∧
    (update_ftp_account (fun _ => "h2") .timeoutExpired [] "alice" "a"
        "" "/home/alice/n" ⟨some "a|h|d\nb|g|e\n", none⟩).fs =
      ⟨some (String.join ((fileLines "a|h|d\nb|g|e\n").map fun l =>
        if firstField l == "a" then
          updateLine (fun _ => "h2") "a" "" "/home/alice/n" l
        else l)), none⟩ :=
  ⟨(spec_c6_rewrite_protocol (fun _ => "h2") .timeoutExpired [] "alice"
      "a" "" "/home/alice/n" "a|h|d\nb|g|e\n" none).1 (by decide),
    ((spec_c6_rewrite_protocol (fun _ => "h2") .timeoutExpired [] "alice"
      "a" "" "/home/alice/n" "a|h|d\nb|g|e\n" none).2 (by decide)
      (fun _ => by decide)).1⟩

/-- C7: for create, update and delete, the success flag and the resulting
filesystem state never depend on the outcome of the external docker-restart
call — a failed or timed-out reload cannot turn a committed mutation into a
failure, and the committed file content is never rolled back.  When the
reload fails after a successful mutation, the returned message is the
degraded-success message built from the reload error, which differs from the
full-success message. -/
theorem spec_c7_reload_failsoft (gph : String → String) (cwd : List String)
    (o u1 pw f u2 u3 np nf : String) (fs : FsState)
    (ro ro' : RestartOutcome) :
    ((create_ftp_account gph ro cwd o u1 pw f fs).success =
        (create_ftp_account gph ro' cwd o u1 pw f fs).success ∧
      (create_ftp_account gph ro cwd o u1 pw f fs).fs =
        (create_ftp_account gph ro' cwd o u1 pw f fs).fs) ∧
    ((delete_ftp_account ro o u2 fs).success =
        (delete_ftp_account ro' o u2 fs).success ∧
      (delete_ftp_account ro o u2 fs).fs =
        (delete_ftp_account ro' o u2 fs).fs) ∧
    ((update_ftp_account gph ro cwd o u3 np nf fs).success =
        (update_ftp_account gph ro' cwd o u3 np nf fs).success ∧
      (update_ftp_account gph ro cwd o u3 np nf fs).fs =
        (update_ftp_account gph ro' cwd o u3 np nf fs).fs) ∧
    ((run_docker_restart ro).1 = false →
      ((create_ftp_account gph ro cwd o u1 pw f fs).success = true →
        (create_ftp_account gph ro cwd o u1 pw f fs).message =
          "Account created, but " ++ (run_docker_restart ro).2 ∧
        (create_ftp_account gph ro cwd o u1 pw f fs).message ≠
          "FTP account created successfully") ∧
      ((delete_ftp_account ro o u2 fs).success = true →
        (delete_ftp_account ro o u2 fs).message =
          "Account deleted, but " ++ (run_docker_restart ro).2 ∧
        (delete_ftp_account ro o u2 fs).message ≠
          "FTP account deleted successfully") ∧
      ((update_ftp_account gph ro cwd o u3 np nf fs).success = true →
        (update_ftp_account gph ro cwd o u3 np nf fs).message =
          "Account updated, but " ++ (run_docker_restart ro).2 ∧
        (update_ftp_account gph ro cwd o u3 np nf fs).message ≠
          "FTP account updated successfully")) := by
  refine ⟨create_ro_inv gph cwd o u1 pw f fs ro ro',
    delete_ro_inv o u2 fs ro ro',
    update_ro_inv gph cwd o u3 np nf fs ro ro', ?_⟩
  intro hfail
  refine ⟨fun hs => ⟨create_msg_degraded gph cwd o u1 pw f fs ro hfail hs,
      ?_⟩,
    fun hs => ⟨delete_msg_degraded o u2 fs ro hfail hs, ?_⟩,
    fun hs => ⟨update_msg_degraded gph cwd o u3 np nf fs ro hfail hs, ?_⟩⟩
  · rw [create_msg_degraded gph cwd o u1 pw f fs ro hfail hs]
    exact str_append_ne_of_head _ _ _ rfl rfl (by decide)
  · rw [delete_msg_degraded o u2 fs ro hfail hs]
    exact str_append_ne_of_head _ _ _ rfl rfl (by decide)
  · rw [update_msg_degraded gph cwd o u3 np nf fs ro hfail hs]
    exact str_append_ne_of_head _ _ _ rfl rfl (by decide)

/-- Witness for C7: with the docker restart failing
(`CalledProcessError`), a successful create, delete and update each return
the degraded-success message, distinct from the full-success message, and
the success flag and file state match those of a run with a clean restart. -/
theorem spec_c7_reload_failsoft_witness :
    ((create_ftp_account (fun _ => "hh") .calledProcessError [] "alice" "b"
        "p" "/home/alice/w" ⟨some "a|h|d\n", none⟩).message =
      "Account created, but " ++
        (run_docker_restart .calledProcessError).2 ∧
      (create_ftp_account (fun _ => "hh") .calledProcessError [] "alice"
        "b" "p" "/home/alice/w" ⟨some "a|h|d\n", none⟩).message ≠
        "FTP account created successfully") ∧
    ((delete_ftp_account .calledProcessError "alice" "a"
        ⟨some "a|h|d\n", none⟩).message =
      "Account deleted, but " ++
        (run_docker_restart .calledProcessError).2 ∧
      (delete_ftp_account .calledProcessError "alice" "a"
        ⟨some "a|h|d\n", none⟩).message ≠
        "FTP account deleted successfully") ∧
    ((update_ftp_account (fun _ => "hh") .calledProcessError [] "alice" "a"
        "" "/home/alice/n" ⟨some "a|h|d\n", none⟩).message =
      "Account updated, but " ++
        (run_docker_restart .calledProcessError).2 ∧
      (update_ftp_account (fun _ => "hh") .calledProcessError [] "alice"
        "a" "" "/home/alice/n" ⟨some "a|h|d\n", none⟩).message ≠
        "FTP account updated successfully") ∧
    (create_ftp_account (fun _ => "hh") .calledProcessError [] "alice" "b"
        "p" "/home/alice/w" ⟨some "a|h|d\n", none⟩).success =
      (create_ftp_account (fun _ => "hh") .ok [] "alice" "b" "p"
        "/home/alice/w" ⟨some "a|h|d\n", none⟩).success ∧
    (delete_ftp_account .calledProcessError "alice" "a"
        ⟨some "a|h|d\n", none⟩).fs =
      (delete_ftp_account .ok "alice" "a" ⟨some "a|h|d\n", none⟩).fs := by
  have H := spec_c7_reload_failsoft (fun _ => "hh") [] "alice" "b" "p"
    "/home/alice/w" "a" "a" "" "/home/alice/n" ⟨some "a|h|d\n", none⟩
    .calledProcessError .ok
  exact ⟨(H.2.2.2 (by decide)).1 (by decide),
    (H.2.2.2 (by decide)).2.1 (by decide),
    (H.2.2.2 (by decide)).2.2 (by decide), H.1.1, H.2.1.2⟩

/-- C8 (counterexample): on the legacy file `"bob\n"` a create for `bob`
with valid inputs succeeds (the duplicate check misses the one-field line),
and the subsequent listing holds two records with username `bob`, not
exactly one, contradicting the claim. -/
theorem spec_c8_counterexample :
    (create_ftp_account (fun _ => "hh") .ok [] "alice" "bob" "pw"
      "/home/alice/x" ⟨some oneFieldFile, none⟩).success = true ∧
    ((list_ftp_accounts (create_ftp_account (fun _ => "hh") .ok [] "alice"
        "bob" "pw" "/home/alice/x"
        ⟨some oneFieldFile, none⟩).fs.userList).filter
      fun rec => rec.username == "bob").length = 2 := by decide

/-- C8 (amended): for every valid create that succeeds on a Record File in
which the username does not yet occur as the first field of any parsed
record (and whose records and new fields are well formed), the subsequent
listing contains exactly one record with that username, and its directory
is the home directory supplied at creation. -/
theorem spec_c8_roundtrip (gph : String → String) (ro : RestartOutcome)
    (cwd : List String) (o u pw f : String) (recs : List (List String))
    (t : Option String)
    (ho : ¬ o = "") (hu : ¬ u = "") (hpw : ¬ pw = "") (hf : ¬ f = "")
    (hvalid : (validate_ftp_path cwd o f).1 = true)
    (hg : ∀ r ∈ recs, goodRec r = true)
    (hgn : goodRec [u, gph pw, f] = true)
    (hne : ∀ r ∈ recs, r.headD "" ≠ u) :
    (create_ftp_account gph ro cwd o u pw f
      ⟨some (renderFile recs), t⟩).success = true ∧
    ((list_ftp_accounts (create_ftp_account gph ro cwd o u pw f
        ⟨some (renderFile recs), t⟩).fs.userList).filter
      fun rec => rec.username == u) = [⟨u, f⟩] := by
  have hnl : '\n' ∉ u.data := goodRec_nl hgn u (by simp)
  rw [create_render gph ro cwd o u pw f recs t ho hu hpw hf hvalid hg hnl
    hne]
  refine ⟨rfl, ?_⟩
  show ((list_ftp_accounts
    (some (renderFile (recs ++ [[u, gph pw, f]])))).filter
      fun rec => rec.username == u) = [⟨u, f⟩]
  rw [show ∀ X, list_ftp_accounts (some X) =
    (read_user_list X).filterMap (fun parts =>
      if 1 ≤ parts.length then
        some (⟨parts.headD "",
          if 2 < parts.length then parts.getD 2 ""
          else "/ftp/" ++ parts.headD ""⟩ : FtpRecord)
      else none) from fun X => rfl]
  rw [read_user_list_renderFile (recs ++ [[u, gph pw, f]]) (by
    intro r hr
    rcases List.mem_append.mp hr with hr | hr
    · exact hg r hr
    · simp only [List.mem_singleton] at hr
      subst hr
      exact hgn)]
  rw [List.filterMap_append, List.filter_append]
  have h1 : ((recs.filterMap fun parts =>
      if 1 ≤ parts.length then
        some (⟨parts.headD "",
          if 2 < parts.length then parts.getD 2 ""
          else "/ftp/" ++ parts.headD ""⟩ : FtpRecord)
      else none).filter fun rec => rec.username == u) = [] := by
    rw [List.filter_eq_nil_iff]
    intro rec hrec
    rcases List.mem_filterMap.mp hrec with ⟨r, hr, hfr⟩
    by_cases hlen : 1 ≤ r.length
    · rw [if_pos hlen] at hfr
      simp only [Option.some.injEq] at hfr
      subst hfr
      simpa using hne r hr
    · rw [if_neg hlen] at hfr
      simp at hfr
  have h2 : (([[u, gph pw, f]].filterMap fun parts =>
      if 1 ≤ parts.length then
        some (⟨parts.headD "",
          if 2 < parts.length then parts.getD 2 ""
          else "/ftp/" ++ parts.headD ""⟩ : FtpRecord)
      else none).filter fun rec => rec.username == u) = [⟨u, f⟩] := by
    simp
  rw [h1, h2, List.nil_append]

/-- Witness for the amended C8 at a concrete pre-state. -/
theorem spec_c8_roundtrip_witness :
    (create_ftp_account (fun _ => "hh") .ok [] "alice" "dave" "pw"
      "/home/alice/w"
      ⟨some (renderFile [["carol", "h0", "/home/alice/c"]]),
        none⟩).success = true ∧
    ((list_ftp_accounts (create_ftp_account (fun _ => "hh") .ok [] "alice"
        "dave" "pw" "/home/alice/w"
        ⟨some (renderFile [["carol", "h0", "/home/alice/c"]]),
          none⟩).fs.userList).filter
      fun rec => rec.username == "dave") = [⟨"dave", "/home/alice/w"⟩] :=
  spec_c8_roundtrip (fun _ => "hh") .ok [] "alice" "dave" "pw"
    "/home/alice/w" [["carol", "h0", "/home/alice/c"]] none (by decide)
    (by decide) (by decide) (by decide) (by decide) (by decide) (by decide)
    (by decide)

/-- C9: a successful update rewrites every matching record line with exactly
the three fields username, password hash and home directory; any trailing
fields of a longer on-disk record (uid, gid, quota positions) are dropped
and are absent from the parsed file after the update. -/
theorem spec_c9_update_three_fields (gph : String → String)
    (ro : RestartOutcome) (cwd : List String) (o u np nf : String)
    (recs : List (List String)) (t : Option String)
    (hg : ∀ r ∈ recs, goodRec r = true)
    (hvnf : nf ≠ "" → (validate_ftp_path cwd o nf).1 = true)
    (hfound : (recs.any fun r => r.headD "" == u) = true)
    (hgU : ∀ r ∈ recs, goodRec (updateRec gph u np nf r) = true) :
    (update_ftp_account gph ro cwd o u np nf
      ⟨some (renderFile recs), t⟩).fs.userList =
      some (renderFile (recs.map (updateRec gph u np nf))) ∧
    read_user_list (renderFile (recs.map (updateRec gph u np nf))) =
      recs.map (updateRec gph u np nf) ∧
    ∀ r ∈ recs, r.headD "" = u → (updateRec gph u np nf r).length = 3 := by
  refine ⟨?_, ?_, ?_⟩
  · rw [update_render gph ro cwd o u np nf recs t hg hvnf hfound]
  · exact read_user_list_renderFile _ (by
      intro r' hr'
      rcases List.mem_map.mp hr' with ⟨r, hr, rfl⟩
      exact hgU r hr)
  · intro r _ hhead
    unfold updateRec
    rw [if_pos (by simpa using hhead)]
    rfl

/-- Witness for C9: updating user `a`, stored with a seven-field record,
leaves a three-field record; the quota-position fields are gone. -/
theorem spec_c9_update_three_fields_witness :
    (update_ftp_account (fun _ => "h2") .ok [] "alice" "a" "p2"
      "/home/alice/n"
      ⟨some (renderFile [["a", "h", "d", "1001", "1001", "10", "20"]]),
        none⟩).fs.userList =
      some (renderFile ([["a", "h", "d", "1001", "1001", "10", "20"]].map
        (updateRec (fun _ => "h2") "a" "p2" "/home/alice/n"))) ∧
    read_user_list (renderFile
        ([["a", "h", "d", "1001", "1001", "10", "20"]].map
          (updateRec (fun _ => "h2") "a" "p2" "/home/alice/n"))) =
      [["a", "h", "d", "1001", "1001", "10", "20"]].map
        (updateRec (fun _ => "h2") "a" "p2" "/home/alice/n") ∧
    (updateRec (fun _ => "h2") "a" "p2" "/home/alice/n"
      ["a", "h", "d", "1001", "1001", "10", "20"]).length = 3 :=
  ⟨(spec_c9_update_three_fields (fun _ => "h2") .ok [] "alice" "a" "p2"
      "/home/alice/n" [["a", "h", "d", "1001", "1001", "10", "20"]] none
      (by decide) (fun _ => by decide) (by decide) (by decide)).1,
    (spec_c9_update_three_fields (fun _ => "h2") .ok [] "alice" "a" "p2"
      "/home/alice/n" [["a", "h", "d", "1001", "1001", "10", "20"]] none
      (by decide) (fun _ => by decide) (by decide) (by decide)).2.1,
    (spec_c9_update_three_fields (fun _ => "h2") .ok [] "alice" "a" "p2"
      "/home/alice/n" [["a", "h", "d", "1001", "1001", "10", "20"]] none
      (by decide) (fun _ => by decide) (by decide) (by decide)).2.2
      ["a", "h", "d", "1001", "1001", "10", "20"] (by decide) (by decide)⟩

theorem listAccounts_render (recs : List (List String))
    (hg : ∀ r ∈ recs, goodRec r = true) :
    list_ftp_accounts (some (renderFile recs)) =
      recs.map fun r => (⟨r.headD "",
        if 2 < r.length then r.getD 2 ""
        else "/ftp/" ++ r.headD ""⟩ : FtpRecord) := by
  rw [show ∀ X, list_ftp_accounts (some X) =
    (read_user_list X).filterMap (fun parts =>
      if 1 ≤ parts.length then
        some (⟨parts.headD "",
          if 2 < parts.length then parts.getD 2 ""
          else "/ftp/" ++ parts.headD ""⟩ : FtpRecord)
      else none) from fun X => rfl]
  rw [read_user_list_renderFile recs hg]
  induction recs with
  | nil => rfl
  | cons r rs ih =>
      have hlen : 1 ≤ r.length := by
        have hnn := goodRec_ne_nil (hg r (by simp))
        cases r with
        | nil => exact absurd rfl hnn
        | cons a l => simp
      simp only [List.filterMap_cons, List.map_cons, if_pos hlen]
      rw [ih (fun x hx => hg x (by simp [hx]))]

/-- C10: a record line with fewer than three fields does not make the
listing fail: both the per-user listing and the admin all-accounts listing
return the record with its first field as username and the synthesized
default directory `/ftp/{ftp_username}`. -/
theorem spec_c10_default_directory (recs : List (List String))
    (users : List (String × Option String)) (owner : String)
    (hg : ∀ r ∈ recs, goodRec r = true)
    (hmem : (owner, some (renderFile recs)) ∈ users) :
    (list_ftp_accounts (some (renderFile recs)) =
      recs.map fun r => (⟨r.headD "",
        if 2 < r.length then r.getD 2 ""
        else "/ftp/" ++ r.headD ""⟩ : FtpRecord)) ∧
    (∀ r ∈ recs, r.length < 3 →
      (⟨r.headD "", "/ftp/" ++ r.headD ""⟩ : FtpRecord) ∈
        list_ftp_accounts (some (renderFile recs))) ∧
    (∀ r ∈ recs, r.length < 3 →
      (⟨owner, r.headD "", "/ftp/" ++ r.headD ""⟩ : AdminFtpRecord) ∈
        get_all_ftp_accounts users) := by
  refine ⟨listAccounts_render recs hg, ?_, ?_⟩
  · intro r hr hshort
    rw [listAccounts_render recs hg]
    have : (⟨r.headD "", "/ftp/" ++ r.headD ""⟩ : FtpRecord) =
        ⟨r.headD "", if 2 < r.length then r.getD 2 ""
          else "/ftp/" ++ r.headD ""⟩ := by
      rw [if_neg (by omega)]
    rw [this]
    exact List.mem_map_of_mem _ hr
  · intro r hr hshort
    unfold get_all_ftp_accounts
    apply List.mem_flatten.mpr
    refine ⟨(read_user_list (renderFile recs)).filterMap (fun parts =>
      if 1 ≤ parts.length then
        some (⟨owner, parts.headD "",
          if 2 < parts.length then parts.getD 2 ""
          else "/ftp/" ++ parts.headD ""⟩ : AdminFtpRecord)
      else none), ?_, ?_⟩
    · have h1 : ((owner : String), renderFile recs) ∈
          users.filterMap (fun pr =>
            match pr.2 with
            | none => none
            | some content => some (pr.1, content)) :=
        List.mem_filterMap.mpr ⟨(owner, some (renderFile recs)), hmem, rfl⟩
      exact List.mem_map_of_mem _ h1
    · rw [read_user_list_renderFile recs hg]
      apply List.mem_filterMap.mpr
      have hlen : 1 ≤ r.length := by
        have hnn := goodRec_ne_nil (hg r hr)
        cases r with
        | nil => exact absurd rfl hnn
        | cons a l => simp
      refine ⟨r, hr, ?_⟩
      rw [if_pos hlen, if_neg (by omega)]

/-- Witness for C10: the legacy one-field record `bob` is listed with the
synthesized directory `/ftp/bob`, next to a four-field record, in both the
per-user and the admin listing. -/
theorem spec_c10_default_directory_witness :
    list_ftp_accounts
      (some (renderFile [["bob"], ["c", "h", "d", "x"]])) =
      [⟨"bob", "/ftp/bob"⟩, ⟨"c", "d"⟩] ∧
    (⟨"bob", "/ftp/bob"⟩ : FtpRecord) ∈ list_ftp_accounts
      (some (renderFile [["bob"], ["c", "h", "d", "x"]])) ∧
    (⟨"alice", "bob", "/ftp/bob"⟩ : AdminFtpRecord) ∈ get_all_ftp_accounts
      [("alice", some (renderFile [["bob"], ["c", "h", "d", "x"]]))] :=
  ⟨(spec_c10_default_directory [["bob"], ["c", "h", "d", "x"]]
      [("alice", some (renderFile [["bob"], ["c", "h", "d", "x"]]))]
      "alice" (by decide) (by decide)).1.trans (by decide),
    (spec_c10_default_directory [["bob"], ["c", "h", "d", "x"]]
      [("alice", some (renderFile [["bob"], ["c", "h", "d", "x"]]))]
      "alice" (by decide) (by decide)).2.1 ["bob"] (by decide) (by decide),
    (spec_c10_default_directory [["bob"], ["c", "h", "d", "x"]]
      [("alice", some (renderFile [["bob"], ["c", "h", "d", "x"]]))]
      "alice" (by decide) (by decide)).2.2 ["bob"] (by decide)
      (by decide)⟩
